import Mathlib

/-!
# Bet tracker: a shallow embedding of `app.py`

This file embeds the ledger/metrics core of the bet-tracker application
(`app.py`) in Lean 4 and proves properties of the embedded functions.

Modelling conventions:
* Currency amounts, odds and derived statistics are exact rationals (`ℚ`);
  the Python floats are thereby modelled without rounding.  `np.nan` is
  modelled by a dedicated constructor of `PyFloat`.
* Calendar dates are natural numbers ordered as the dates are.
* A pandas `DataFrame` holding the ledger is a `List BetRecord` in row
  order; the optional `cumulative_profit` column written by
  `compute_metrics` is an `Option ℚ` field of the record.
* Python exceptions (`ZeroDivisionError` from `100.0/abs(0)`, the pandas
  `KeyError` raised when a column is missing) are modelled with `Except`.
* Python `dict` is an association list in key-insertion order, matching
  the iteration order guarantee of Python dicts.
* `df.sort_values('date')` is modelled by a stable insertion sort on the
  date key.  (pandas' default quicksort leaves the relative order of
  same-date rows implementation-defined; the stable order is one of the
  admissible orders and is fixed here.)
-/

/-- A Python float value as far as this program distinguishes them:
either an actual numeric value (exact rational) or `np.nan`. -/
inductive PyFloat where
  | nan : PyFloat
  | val : ℚ → PyFloat
deriving Repr, DecidableEq

/-- The possible inputs to `american_to_decimal`: a numeric value (a number,
or a string `float` parses), a missing value (`None`, raising `TypeError`
inside `float`), or a non-numeric string (raising `ValueError`). -/
inductive OddsInput where
  | num : ℚ → OddsInput
  | missing : OddsInput
  | nonNumericStr : OddsInput
deriving Repr, DecidableEq

/-- `american_to_decimal` from `app.py`:
```python
def american_to_decimal(odds):
    try:
        odds = float(odds)
    except (TypeError, ValueError):
        return np.nan
    if odds > 0:
        return 1 + (odds / 100.0)
    else:
        return 1 + (100.0 / abs(odds))
```
`float` raising `TypeError`/`ValueError` is caught and yields `nan`; for
`odds = 0` the `else` branch divides `100.0` by `abs(0)`, which raises an
uncaught `ZeroDivisionError` in Python. -/
def american_to_decimal (odds : OddsInput) : Except String PyFloat :=
  match odds with
  | .missing => .ok .nan
  | .nonNumericStr => .ok .nan
  | .num q =>
    if q > 0 then
      .ok (.val (1 + q / 100))
    else
      if |q| = 0 then
        .error "ZeroDivisionError: float division by zero"
      else
        .ok (.val (1 + 100 / |q|))

/-- One row of the ledger (`bets_log.csv`): the fields of a bet record, in
the schema order of `load_bets`, plus the `cumulative_profit` column that
`compute_metrics` adds (absent, i.e. `none`, until it is written). -/
structure BetRecord where
  date : Nat
  sport : String
  market : String
  book : String
  bet_type : String
  selection : String
  odds_american : ℚ
  odds_decimal : PyFloat
  stake : ℚ
  result : String
  profit : ℚ
  expected_value : ℚ
  closing_line : String
  notes : String
  cumulative_profit : Option ℚ := none
deriving Repr, DecidableEq

/-- `STARTING_BANKROLLS` from `app.py`: the configured per-book starting
balances, as an association list in source order. -/
def STARTING_BANKROLLS : List (String × ℚ) :=
  [("FanDuel", 200), ("DraftKings", 200), ("Caesars", 200)]

/-- `STARTING_BANKROLLS.get(b, 0.0)`: the starting balance of book `b`,
defaulting to `0` for an unrecognized book. -/
def startingBankroll (b : String) : ℚ :=
  (STARTING_BANKROLLS.lookup b).getD 0

/-- `CSV_PATH` from `app.py`. -/
def CSV_PATH : String := "bets_log.csv"

/-- The file system as the persistence layer sees it: which paths hold a
ledger, and that ledger's rows.  The CSV encoding itself is done by pandas
(`to_csv`/`read_csv`, external collaborators); per the round-trip property
of the persisted format, a file is modelled by the record sequence it
stores. -/
abbrev FileSys := List (String × List BetRecord)

/-- Overwrite (or create) the file at `path` with rows `df`. -/
def writeFile (fs : FileSys) (path : String) (df : List BetRecord) : FileSys :=
  if (fs.lookup path).isSome then
    fs.map (fun e => if e.1 = path then (path, df) else e)
  else
    fs ++ [(path, df)]

/-- `load_bets` from `app.py`: read the CSV at `path`; a missing file
(`FileNotFoundError`) yields the empty ledger with the fixed schema. -/
def load_bets (fs : FileSys) (path : String) : List BetRecord :=
  (fs.lookup path).getD []

/-- `save_bets` from `app.py`: write the whole ledger to `path`. -/
def save_bets (fs : FileSys) (df : List BetRecord) (path : String) : FileSys :=
  writeFile fs path df

/-- `add_bet` from `app.py`: append `bet_data` as the last row
(`pd.concat(..., ignore_index=True)`), persist the whole ledger at
`CSV_PATH`, and return the updated ledger together with the file system
after the save. -/
def add_bet (fs : FileSys) (df : List BetRecord) (bet_data : BetRecord) :
    List BetRecord × FileSys :=
  let df2 := df ++ [bet_data]
  (df2, save_bets fs df2 CSV_PATH)

/-- Running (prefix) sums starting from accumulator `acc`. -/
def cumsumFrom (acc : ℚ) : List ℚ → List ℚ
  | [] => []
  | p :: ps => (acc + p) :: cumsumFrom (acc + p) ps

/-- `Series.cumsum`: the running sums of a list, in the list's order. -/
def cumsum (l : List ℚ) : List ℚ := cumsumFrom 0 l

/-- The effect of `df['cumulative_profit'] = df['profit'].cumsum()` on the
frame: each row's `cumulative_profit` is set to the running profit sum in
row order. -/
def setCumulative (df : List BetRecord) : List BetRecord :=
  df.zipWith (fun r c => { r with cumulative_profit := some c })
    (cumsum (df.map (·.profit)))

/-- A record with its `cumulative_profit` column dropped: used to speak
about the other columns of a frame. -/
def eraseCumulative (r : BetRecord) : BetRecord :=
  { r with cumulative_profit := none }

/-- The dictionary of scalar metrics returned by `compute_metrics`. -/
structure Metrics where
  totalBets : Nat
  totalStaked : ℚ
  totalProfit : ℚ
  roi : ℚ
  winRate : ℚ
deriving Repr, DecidableEq

/-- `compute_metrics` from `app.py`:
```python
def compute_metrics(df):
    df['cumulative_profit'] = df['profit'].cumsum()
    total_staked = df['stake'].sum()
    total_profit = df['profit'].sum()
    roi = (total_profit / total_staked) if total_staked else 0
    win_rate = (df['profit'] > 0).sum() / len(df) if len(df) else 0
    return {...}
```
The column assignment mutates the caller's frame, so the embedding returns
the metrics together with the frame as the caller sees it afterwards.
Python's `if total_staked` is falsy exactly at `0`. -/
def compute_metrics (df : List BetRecord) : Metrics × List BetRecord :=
  let df' := setCumulative df
  let total_staked := (df.map (·.stake)).sum
  let total_profit := (df.map (·.profit)).sum
  let roi := if total_staked = 0 then 0 else total_profit / total_staked
  let win_rate :=
    if df.length = 0 then 0
    else ((df.countP (fun r => decide (0 < r.profit)) : ℚ) / (df.length : ℚ))
  (⟨df.length, total_staked, total_profit, roi, win_rate⟩, df')

/-- Stable insertion of a record into a date-sorted list: the record is
placed before the first element whose date is not smaller, so two rows
with equal dates keep their relative order. -/
def insertByDate (r : BetRecord) : List BetRecord → List BetRecord
  | [] => [r]
  | x :: xs => if r.date ≤ x.date then r :: x :: xs else x :: insertByDate r xs

/-- `df.sort_values('date')` as a stable sort by ascending date. -/
def sortByDate : List BetRecord → List BetRecord
  | [] => []
  | r :: rs => insertByDate r (sortByDate rs)

/-- One row of the bankroll time series: the snapshot dict built in the
walk of `bankroll_simulation` — the record's date together with the whole
running-balance dict (the Python keys `balance__<book>` are the book
names here). -/
structure Snapshot where
  date : Nat
  balances : List (String × ℚ)
deriving Repr, DecidableEq

/-- Stable insertion of a snapshot into a date-sorted snapshot list. -/
def insertSnapByDate (s : Snapshot) : List Snapshot → List Snapshot
  | [] => [s]
  | x :: xs => if s.date ≤ x.date then s :: x :: xs else x :: insertSnapByDate s xs

/-- `out.sort_values('date')` on the snapshot frame, again stable. -/
def sortSnapsByDate : List Snapshot → List Snapshot
  | [] => []
  | s :: ss => insertSnapByDate s (sortSnapsByDate ss)

/-- `Series.unique`: the distinct values of a list in order of first
appearance. -/
def uniqueFirst : List String → List String
  | [] => []
  | b :: bs => b :: (uniqueFirst bs).filter (fun x => x ≠ b)

/-- Python `d.get(k, v0)` on a dict modelled as an association list. -/
def dictGetD (d : List (String × ℚ)) (k : String) (v0 : ℚ) : ℚ :=
  (d.lookup k).getD v0

/-- Python `d[k] = v`: update the value in place if the key exists
(keeping its position), otherwise append the new key at the end. -/
def dictSet (d : List (String × ℚ)) (k : String) (v : ℚ) : List (String × ℚ) :=
  if (d.lookup k).isSome then
    d.map (fun kv => if kv.1 = k then (k, v) else kv)
  else
    d ++ [(k, v)]

/-- `running[b] = running.get(b, 0.0) + r['profit']`. -/
def updateRunning (d : List (String × ℚ)) (b : String) (p : ℚ) :
    List (String × ℚ) :=
  dictSet d b (dictGetD d b 0 + p)

/-- The `for _, r in df.iterrows()` loop of `bankroll_simulation`: walk the
(date-sorted) records, add each record's profit to its book's running
balance, and emit a snapshot of the whole running dict after each step. -/
def walkRows (running : List (String × ℚ)) : List BetRecord → List Snapshot
  | [] => []
  | r :: rs =>
    let running' := updateRunning running r.book r.profit
    ⟨r.date, running'⟩ :: walkRows running' rs

/-- `drop_duplicates('date')` with the default `keep='first'`: keep the
first row for each distinct date, preserving order.  `seen` accumulates
the dates already kept. -/
def dropDupDatesGo (seen : List Nat) : List Snapshot → List Snapshot
  | [] => []
  | s :: rest =>
    if s.date ∈ seen then dropDupDatesGo seen rest
    else s :: dropDupDatesGo (s.date :: seen) rest

/-- `pd.DataFrame(rows).drop_duplicates('date')` for a non-empty `rows`. -/
def dropDupDatesFirst (rows : List Snapshot) : List Snapshot :=
  dropDupDatesGo [] rows

/-- The seed of the running-balance dict:
`{b: STARTING_BANKROLLS.get(b, 0.0) for b in df['book'].unique()}`,
over the sorted frame (the local `df` was rebound to the sorted copy). -/
def seedRunning (sorted : List BetRecord) : List (String × ℚ) :=
  (uniqueFirst (sorted.map (·.book))).map (fun b => (b, startingBankroll b))

/-- `bankroll_simulation` from `app.py`:
```python
def bankroll_simulation(df):
    df = df.sort_values('date')
    running = {b: STARTING_BANKROLLS.get(b, 0.0) for b in df['book'].unique()}
    rows = []
    for _, r in df.iterrows():
        b = r['book']
        running[b] = running.get(b, 0.0) + r['profit']
        snap = {'date': r['date']}
        snap.update({f'balance__{bk}': running[bk] for bk in running})
        rows.append(snap)
    out = pd.DataFrame(rows).drop_duplicates('date').sort_values('date')
    return out
```
When `rows` is empty, `pd.DataFrame(rows)` has no columns at all, and the
collapse/sort on the `'date'` column raises a pandas `KeyError`; this is
the `.error` branch.  Otherwise the snapshot frame is deduplicated by date
(pandas default `keep='first'`) and sorted by date ascending. -/
def bankroll_simulation (df : List BetRecord) : Except String (List Snapshot) :=
  let sorted := sortByDate df
  let rows := walkRows (seedRunning sorted) sorted
  if rows.isEmpty then
    .error "KeyError: 'date'"
  else
    .ok (sortSnapsByDate (dropDupDatesFirst rows))

/-- `bankroll_simulation` viewed with the caller's frame threaded through:
the function's local `df = df.sort_values('date')` rebinds the local name
to a sorted copy (pandas `sort_values` returns a new frame), so the
caller's frame after the call is the frame passed in, unchanged. -/
def bankroll_simulation_call (df : List BetRecord) :
    Except String (List Snapshot) × List BetRecord :=
  (bankroll_simulation df, df)

/-- Modelled from the spec (§4.3), for comparison with the code: the
cumulative profit of each record as "the running sum of profit taken over
the records in ascending date order (ties broken by original insertion
order)" — record `i`'s value sums the profits of the records `j` that
precede-or-equal it in the lexicographic (date, insertion index) order. -/
def dateOrderCumProfit (df : List BetRecord) : List ℚ :=
  df.enum.map (fun p =>
    ((df.enum.filter (fun q =>
        q.2.date < p.2.date ∨ (q.2.date = p.2.date ∧ q.1 ≤ p.1))).map
      (fun q => q.2.profit)).sum)

/-- Modelled from the spec (§4.4 step 4), for comparison with the code:
collapsing snapshot rows to one per distinct date keeping the *last*
snapshot for each date. -/
def dropDupDatesLast (rows : List Snapshot) : List Snapshot :=
  (dropDupDatesGo [] rows.reverse).reverse

/-- A sample fully-formed record with the fields the ledger logic reads
(`date`, `book`, `stake`, `profit`) supplied and the remaining fields
fixed to form defaults. -/
def mkBet (date : Nat) (book : String) (stake profit : ℚ) : BetRecord :=
  { date := date, sport := "NBA", market := "Moneyline", book := book,
    bet_type := "Single", selection := "LAL -3", odds_american := -110,
    odds_decimal := .val (1 + 100 / 110), stake := stake, result := "Pending",
    profit := profit, expected_value := 0, closing_line := "", notes := "" }


/-- A two-record ledger stored out of ascending date order: the record
dated `2` was inserted before the record dated `1`. -/
def c1Ledger : List BetRecord :=
  [mkBet 2 "FanDuel" 10 1, mkBet 1 "FanDuel" 10 2]

/-- A ledger with two same-date records on one book, profits `5` and `7`:
used to compare the collapse-to-one-row-per-date policies. -/
def c2Ledger : List BetRecord :=
  [mkBet 1 "FanDuel" 10 5, mkBet 1 "FanDuel" 10 7]

/-- The two-record example ledger of the spec: `(stake=10, profit=9.09,
book=FanDuel, date=d1)` then `(stake=10, profit=-10, book=FanDuel,
date=d2)`. -/
def c7Ledger (d1 d2 : Nat) : List BetRecord :=
  [mkBet d1 "FanDuel" 10 9.09, mkBet d2 "FanDuel" 10 (-10)]

/-- A two-book ledger whose DraftKings bet is dated after its FanDuel
bet: at the date-1 snapshot, DraftKings has seen no bet yet. -/
def c10Ledger : List BetRecord :=
  [mkBet 1 "FanDuel" 10 5, mkBet 2 "DraftKings" 10 (-3)]

/-- The snapshot sequence `bankroll_simulation` produces for
`c10Ledger`. -/
def c10Out : List Snapshot :=
  [⟨1, [("FanDuel", 205), ("DraftKings", 200)]⟩,
   ⟨2, [("FanDuel", 205), ("DraftKings", 197)]⟩]

/-! ## Helper lemmas about the embedded operations -/

/-- Unfolding `List.lookup` one pair at a time through propositional
equality of string keys. -/
theorem lookup_cons {β : Type} (b a : String) (w : β) (d : List (String × β)) :
    List.lookup b ((a, w) :: d) = if b = a then some w else List.lookup b d := by
  by_cases h : b = a
  · subst h; simp [List.lookup]
  · have h' : (b == a) = false := by simp [h]
    simp [List.lookup, h', h]

/-- Looking up a key present in `ks` in the dict `{k: f k for k in ks}`
yields its image under `f` (the first occurrence wins, with the same
value). -/
theorem lookup_map_keyfun (f : String → ℚ) (b : String) :
    ∀ ks : List String, b ∈ ks → (ks.map (fun k => (k, f k))).lookup b = some (f b) := by
  intro ks
  induction ks with
  | nil => intro h; cases h
  | cons k ks ih =>
    intro hb
    rw [List.map_cons, lookup_cons]
    by_cases hk : b = k
    · rw [if_pos hk, hk]
    · rw [if_neg hk]
      rcases List.mem_cons.mp hb with rfl | hb
      · exact absurd rfl hk
      · exact ih hb

/-- `uniqueFirst` has the same elements as its input. -/
theorem mem_uniqueFirst {b : String} : ∀ {l : List String}, b ∈ uniqueFirst l ↔ b ∈ l := by
  intro l
  induction l with
  | nil => exact Iff.rfl
  | cons x xs ih =>
    by_cases hx : b = x
    · subst hx; simp [uniqueFirst]
    · simp [uniqueFirst, hx, ih]

/-- The in-place branch of `dictSet` leaves the binding of every other key
unchanged. -/
theorem lookup_map_set_ne {β : Type} {b k : String} (v : β) (hbk : b ≠ k) :
    ∀ d : List (String × β),
      (d.map (fun kv => if kv.1 = k then (k, v) else kv)).lookup b = d.lookup b := by
  intro d
  induction d with
  | nil => rfl
  | cons kv d ih =>
    obtain ⟨a, w⟩ := kv
    rw [List.map_cons]
    by_cases ha : a = k
    · rw [if_pos ha, lookup_cons, lookup_cons, ih]
      have hba : b ≠ a := fun hh => hbk (hh ▸ ha)
      rw [if_neg hbk, if_neg hba]
    · rw [if_neg ha, lookup_cons, lookup_cons, ih]

/-- The in-place branch of `dictSet` rebinds an existing key to the new
value. -/
theorem lookup_map_set_self {β : Type} {k : String} (v : β) :
    ∀ d : List (String × β), (d.lookup k).isSome →
      (d.map (fun kv => if kv.1 = k then (k, v) else kv)).lookup k = some v := by
  intro d
  induction d with
  | nil => intro h; simp [List.lookup] at h
  | cons kv d ih =>
    obtain ⟨a, w⟩ := kv
    intro h
    rw [List.map_cons]
    by_cases ha : a = k
    · rw [if_pos ha, lookup_cons, if_pos rfl]
    · rw [if_neg ha, lookup_cons]
      have hka : k ≠ a := Ne.symm ha
      rw [if_neg hka]
      rw [lookup_cons, if_neg hka] at h
      exact ih h

/-- `dictSet` on a key other than `b` leaves `b`'s binding unchanged. -/
theorem lookup_dictSet_ne {d : List (String × ℚ)} {b k : String} (v : ℚ)
    (hbk : b ≠ k) : (dictSet d k v).lookup b = d.lookup b := by
  unfold dictSet
  split
  · exact lookup_map_set_ne v hbk d
  · rw [List.lookup_append]
    have h2 : List.lookup b [(k, v)] = none := by
      rw [lookup_cons, if_neg hbk]; rfl
    rw [h2, Option.or_none]

/-- `dictSet` on a key the dict already binds rebinds it to the new
value. -/
theorem lookup_dictSet_self {d : List (String × ℚ)} {k : String} (v : ℚ)
    (hk : (d.lookup k).isSome) : (dictSet d k v).lookup k = some v := by
  unfold dictSet
  rw [if_pos hk]
  exact lookup_map_set_self v d hk

/-- `updateRunning` with a book other than `b` leaves `b`'s balance
binding unchanged. -/
theorem lookup_updateRunning_ne {d : List (String × ℚ)} {b b' : String}
    (p : ℚ) (hb : b ≠ b') : (updateRunning d b' p).lookup b = d.lookup b :=
  lookup_dictSet_ne _ hb

/-- `updateRunning` never removes a key: a bound key stays bound. -/
theorem isSome_lookup_updateRunning {d : List (String × ℚ)} {b : String}
    (b' : String) (p : ℚ) (hb : (d.lookup b).isSome) :
    ((updateRunning d b' p).lookup b).isSome := by
  by_cases h : b = b'
  · subst h
    rw [updateRunning, lookup_dictSet_self _ hb]
    rfl
  · rw [lookup_updateRunning_ne _ h]
    exact hb

/-- Membership in a stable date-insertion. -/
theorem mem_insertByDate {x r : BetRecord} :
    ∀ {l : List BetRecord}, x ∈ insertByDate r l ↔ x = r ∨ x ∈ l := by
  intro l
  induction l with
  | nil => simp [insertByDate]
  | cons y ys ih =>
    by_cases h : r.date ≤ y.date
    · simp [insertByDate, h]
    · simp [insertByDate, h, ih]
      tauto

/-- `sortByDate` has the same elements as its input. -/
theorem mem_sortByDate {x : BetRecord} :
    ∀ {l : List BetRecord}, x ∈ sortByDate l ↔ x ∈ l := by
  intro l
  induction l with
  | nil => exact Iff.rfl
  | cons y ys ih =>
    simp [sortByDate, mem_insertByDate, ih]

/-- Inserting into a date-sorted list keeps it date-sorted. -/
theorem pairwise_insertByDate {r : BetRecord} :
    ∀ {l : List BetRecord}, l.Pairwise (fun a b => a.date ≤ b.date) →
      (insertByDate r l).Pairwise (fun a b => a.date ≤ b.date) := by
  intro l
  induction l with
  | nil => intro _; simp [insertByDate]
  | cons y ys ih =>
    intro hp
    rcases List.pairwise_cons.mp hp with ⟨hy, hys⟩
    by_cases h : r.date ≤ y.date
    · rw [insertByDate, if_pos h]
      refine List.pairwise_cons.mpr ⟨?_, hp⟩
      intro z hz
      rcases List.mem_cons.mp hz with rfl | hz
      · exact h
      · exact Nat.le_trans h (hy z hz)
    · rw [insertByDate, if_neg h]
      refine List.pairwise_cons.mpr ⟨?_, ih hys⟩
      intro z hz
      rcases mem_insertByDate.mp hz with rfl | hz
      · exact Nat.le_of_not_le h
      · exact hy z hz

/-- `sortByDate` produces a list whose dates are ascending. -/
theorem pairwise_sortByDate :
    ∀ l : List BetRecord, (sortByDate l).Pairwise (fun a b => a.date ≤ b.date) := by
  intro l
  induction l with
  | nil => exact List.Pairwise.nil
  | cons y ys ih => exact pairwise_insertByDate ih

/-- Membership in a stable snapshot insertion. -/
theorem mem_insertSnapByDate {x s : Snapshot} :
    ∀ {l : List Snapshot}, x ∈ insertSnapByDate s l ↔ x = s ∨ x ∈ l := by
  intro l
  induction l with
  | nil => simp [insertSnapByDate]
  | cons y ys ih =>
    by_cases h : s.date ≤ y.date
    · simp [insertSnapByDate, h]
    · simp [insertSnapByDate, h, ih]
      tauto

/-- `sortSnapsByDate` has the same elements as its input. -/
theorem mem_sortSnapsByDate {x : Snapshot} :
    ∀ {l : List Snapshot}, x ∈ sortSnapsByDate l ↔ x ∈ l := by
  intro l
  induction l with
  | nil => exact Iff.rfl
  | cons y ys ih =>
    simp [sortSnapsByDate, mem_insertSnapByDate, ih]

/-- A snapshot kept by the keep-first collapse is, for its date, the first
row of the uncollapsed sequence (and its date was not already seen). -/
theorem dropDupDatesGo_find? {s : Snapshot} :
    ∀ {seen : List Nat} {l : List Snapshot}, s ∈ dropDupDatesGo seen l →
      s.date ∉ seen ∧ l.find? (fun t => t.date == s.date) = some s := by
  intro seen l
  induction l generalizing seen with
  | nil => intro h; cases h
  | cons x rest ih =>
    intro hs
    by_cases hx : x.date ∈ seen
    · rw [dropDupDatesGo, if_pos hx] at hs
      obtain ⟨hseen, hfind⟩ := ih hs
      have hxs : ¬ (x.date == s.date) = true := by
        simp only [beq_iff_eq]
        intro hh
        exact hseen (hh ▸ hx)
      exact ⟨hseen, (List.find?_cons_of_neg rest hxs).trans hfind⟩
    · rw [dropDupDatesGo, if_neg hx] at hs
      rcases List.mem_cons.mp hs with rfl | hs
      · exact ⟨hx, List.find?_cons_of_pos _ (by simp)⟩
      · obtain ⟨hseen, hfind⟩ := ih hs
        have hds : s.date ≠ x.date := by
          intro hh
          exact hseen (by simp [hh])
        have hxs : ¬ (x.date == s.date) = true := by
          simp only [beq_iff_eq]
          exact Ne.symm hds
        exact ⟨fun hh => hseen (List.mem_cons_of_mem _ hh),
          (List.find?_cons_of_neg rest hxs).trans hfind⟩

/-- Rows kept by the keep-first collapse come from the input rows. -/
theorem mem_of_mem_dropDupDatesFirst {s : Snapshot} {l : List Snapshot}
    (h : s ∈ dropDupDatesFirst l) : s ∈ l :=
  List.mem_of_find?_eq_some (dropDupDatesGo_find? h).2

/-- Every snapshot the walk emits carries the date of one of the walked
records. -/
theorem walk_date_mem {s : Snapshot} :
    ∀ {l : List BetRecord} {running : List (String × ℚ)},
      s ∈ walkRows running l → ∃ r ∈ l, s.date = r.date := by
  intro l
  induction l with
  | nil => intro running h; cases h
  | cons r rs ih =>
    intro running hs
    rcases List.mem_cons.mp hs with rfl | hs
    · exact ⟨r, List.mem_cons_self r rs, rfl⟩
    · obtain ⟨r', hr', hd⟩ := ih hs
      exact ⟨r', List.mem_cons_of_mem _ hr', hd⟩

/-- A book bound in the running dict stays bound in every snapshot the
walk emits. -/
theorem walk_isSome {s : Snapshot} {b : String} :
    ∀ {l : List BetRecord} {running : List (String × ℚ)},
      s ∈ walkRows running l → (running.lookup b).isSome →
      (s.balances.lookup b).isSome := by
  intro l
  induction l with
  | nil => intro running h; cases h
  | cons r rs ih =>
    intro running hs hb
    rcases List.mem_cons.mp hs with rfl | hs
    · exact isSome_lookup_updateRunning _ _ hb
    · exact ih hs (isSome_lookup_updateRunning _ _ hb)

/-- In a date-ascending walk, a snapshot dated before every record of
book `b` shows `b` at its balance from the initial running dict. -/
theorem walk_untouched {s : Snapshot} {b : String} :
    ∀ {l : List BetRecord} {running : List (String × ℚ)},
      l.Pairwise (fun a c => a.date ≤ c.date) →
      s ∈ walkRows running l →
      (∀ r ∈ l, r.book = b → s.date < r.date) →
      s.balances.lookup b = running.lookup b := by
  intro l
  induction l with
  | nil => intro running _ h; cases h
  | cons r rs ih =>
    intro running hp hs hafter
    rcases List.pairwise_cons.mp hp with ⟨hr, hrs⟩
    have hbook : r.book ≠ b := by
      intro hb
      have hlt : s.date < r.date := hafter r (List.mem_cons_self r rs) hb
      rcases List.mem_cons.mp hs with rfl | hs
      · exact Nat.lt_irrefl _ hlt
      · obtain ⟨r', hr', hd⟩ := walk_date_mem hs
        have : r.date ≤ r'.date := hr r' hr'
        rw [hd] at hlt
        exact Nat.lt_irrefl _ (Nat.lt_of_lt_of_le hlt this)
    have hpres : (updateRunning running r.book r.profit).lookup b = running.lookup b :=
      lookup_updateRunning_ne _ (Ne.symm hbook)
    rcases List.mem_cons.mp hs with rfl | hs
    · exact hpres
    · rw [ih hrs hs (fun r' hr' => hafter r' (List.mem_cons_of_mem _ hr')), hpres]

/-- Dropping the `cumulative_profit` column of the frame that
`setCumulative` produces returns the original frame with that column
dropped: no other field is touched. -/
theorem map_erase_setCumulative (df : List BetRecord) :
    (setCumulative df).map eraseCumulative = df.map eraseCumulative := by
  unfold setCumulative cumsum
  generalize (0 : ℚ) = acc
  induction df generalizing acc with
  | nil => rfl
  | cons r rs ih =>
    simp only [List.map_cons, cumsumFrom, List.zipWith]
    rw [ih]
    rfl

/-- The `cumulative_profit` column that `setCumulative` writes is the
running profit sum, row by row. -/
theorem map_cum_setCumulative (df : List BetRecord) :
    (setCumulative df).map (·.cumulative_profit) =
      (cumsum (df.map (·.profit))).map some := by
  unfold setCumulative cumsum
  generalize (0 : ℚ) = acc
  induction df generalizing acc with
  | nil => rfl
  | cons r rs ih =>
    simp only [List.map_cons, cumsumFrom, List.zipWith]
    rw [ih]

/-- Reading back the path just written yields the rows just written. -/
theorem lookup_writeFile_self (fs : FileSys) (path : String)
    (df : List BetRecord) : (writeFile fs path df).lookup path = some df := by
  unfold writeFile
  split
  · rename_i hsome
    exact lookup_map_set_self df fs hsome
  · rw [List.lookup_append]
    have h0 : fs.lookup path = none := by
      rename_i hnone
      cases hcase : fs.lookup path
      · rfl
      · rw [hcase] at hnone; simp at hnone
    rw [h0]
    rw [lookup_cons, if_pos rfl]
    rfl

/-! ## The claims -/

/-- C3 (counterexample): `bankroll_simulation` applied to the empty
ledger does not return the empty snapshot sequence. -/
theorem c3_empty_ledger_counterexample :
    bankroll_simulation [] ≠ .ok [] := by
  intro h
  rw [show bankroll_simulation [] = .error "KeyError: 'date'" from rfl] at h
  exact Except.noConfusion h

/-- C3 (amended): `bankroll_simulation` applied to the empty ledger
fails: the walk emits no snapshot rows, `pd.DataFrame([])` has no
columns, and collapsing/sorting on the absent `'date'` column raises a
pandas `KeyError` instead of returning an empty snapshot sequence.  (The
page guards the call: rendering stops earlier when the ledger is
empty.) -/
theorem c3_empty_ledger_raises :
    bankroll_simulation [] = .error "KeyError: 'date'" := rfl

/-- C4 (counterexample): `american_to_decimal(0)` does not produce a
silently propagated NaN — the `else` branch computes `100.0/abs(0)`,
which raises an uncaught `ZeroDivisionError`. -/
theorem c4_zero_odds_counterexample :
    american_to_decimal (.num 0) ≠ .ok PyFloat.nan := by
  intro h
  rw [show american_to_decimal (.num 0) =
      .error "ZeroDivisionError: float division by zero" from by
    simp [american_to_decimal]] at h
  exact Except.noConfusion h

/-- C4 (amended): `american_to_decimal` on a missing or non-numeric
input returns NaN, which propagates silently; on odds equal to `0` it
instead raises `ZeroDivisionError` (from `100.0/abs(0)`). -/
theorem c4_undefined_inputs :
    american_to_decimal .missing = .ok PyFloat.nan ∧
    american_to_decimal .nonNumericStr = .ok PyFloat.nan ∧
    american_to_decimal (.num 0) =
      .error "ZeroDivisionError: float division by zero" := by
  refine ⟨rfl, rfl, ?_⟩
  simp [american_to_decimal]

/-- C5: for numeric odds `o`, positive odds convert by `1 + o/100` and
negative odds by `1 + 100/|o|`. -/
theorem c5_conversion_rule (o : ℚ) :
    (0 < o → american_to_decimal (.num o) = .ok (.val (1 + o / 100))) ∧
    (o < 0 → american_to_decimal (.num o) = .ok (.val (1 + 100 / |o|))) := by
  constructor
  · intro h
    simp [american_to_decimal, h]
  · intro h
    have h1 : ¬ o > 0 := not_lt.mpr h.le
    have h2 : ¬ |o| = 0 := abs_ne_zero.mpr (ne_of_lt h)
    simp [american_to_decimal, h1, h2]

/-- C5 (witness): the rule evaluated at `+110` and `-110`. -/
theorem c5_conversion_rule_witness :
    ((0 : ℚ) < 110 ∧
      american_to_decimal (.num 110) = .ok (.val (1 + 110 / 100))) ∧
    ((-110 : ℚ) < 0 ∧
      american_to_decimal (.num (-110)) =
        .ok (.val (1 + 100 / |(-110 : ℚ)|))) :=
  ⟨⟨by norm_num, (c5_conversion_rule 110).1 (by norm_num)⟩,
   ⟨by norm_num, (c5_conversion_rule (-110)).2 (by norm_num)⟩⟩

/-- C6: `compute_metrics` guards both divisions — ROI is
`total_profit/total_staked` with `0` when `total_staked` is `0`, and the
win rate is `count(profit > 0)/count(records)` with `0` on the empty
ledger; on the empty ledger Total Bets, ROI and win rate are all `0`. -/
theorem c6_division_guards :
    (∀ df : List BetRecord,
      (compute_metrics df).1.roi =
        (if (df.map (·.stake)).sum = 0 then 0
         else (df.map (·.profit)).sum / (df.map (·.stake)).sum) ∧
      (compute_metrics df).1.winRate =
        (if df.length = 0 then 0
         else ((df.countP (fun r => decide (0 < r.profit)) : ℕ) : ℚ) /
           (df.length : ℚ))) ∧
    (compute_metrics []).1.totalBets = 0 ∧
    (compute_metrics []).1.roi = 0 ∧
    (compute_metrics []).1.winRate = 0 :=
  ⟨fun _ => ⟨rfl, rfl⟩, rfl, by norm_num [compute_metrics], by norm_num [compute_metrics]⟩

/-- C8: appending a record `R` to ledger `L` with `add_bet` and
reloading with `load_bets` yields `L ++ [R]`, whatever the file system
held before. -/
theorem c8_append_reload_roundtrip (fs : FileSys) (L : List BetRecord)
    (R : BetRecord) : load_bets (add_bet fs L R).2 CSV_PATH = L ++ [R] := by
  unfold add_bet save_bets load_bets
  rw [lookup_writeFile_self]
  rfl

/-- C9: `compute_metrics` hands back the caller's frame with only the
`cumulative_profit` column changed — erasing that column recovers the
input exactly, and the column it writes is the running profit sum —
while `bankroll_simulation` returns the caller's frame untouched (its
local rebinding to the sorted copy does not reach the caller). -/
theorem c9_frame_effects (df : List BetRecord) :
    (compute_metrics df).2.map eraseCumulative = df.map eraseCumulative ∧
    (compute_metrics df).2.map (·.cumulative_profit) =
      (cumsum (df.map (·.profit))).map some ∧
    (bankroll_simulation_call df).2 = df :=
  ⟨map_erase_setCumulative df, map_cum_setCumulative df, rfl⟩

/-- C1 (counterexample): on `c1Ledger`, whose records are stored out of
date order, `compute_metrics` writes cumulative profits `[1, 3]` — the
running sum in insertion order — while the running sum in ascending date
order (ties by insertion order) per record is `[3, 2]`; the two
disagree. -/
theorem c1_cumulative_counterexample :
    (compute_metrics c1Ledger).2.map (·.cumulative_profit) = [some 1, some 3] ∧
    dateOrderCumProfit c1Ledger = [3, 2] ∧
    (compute_metrics c1Ledger).2.map (·.cumulative_profit) ≠
      (dateOrderCumProfit c1Ledger).map some := by
  have h1 : (compute_metrics c1Ledger).2.map (·.cumulative_profit) =
      [some 1, some 3] := by
    simp [c1Ledger, compute_metrics, setCumulative, cumsum, cumsumFrom, mkBet]
    norm_num
  have h2 : dateOrderCumProfit c1Ledger = [3, 2] := by
    simp [c1Ledger, dateOrderCumProfit, mkBet, List.enum]
    norm_num
  refine ⟨h1, h2, ?_⟩
  rw [h1, h2]
  intro h
  simp at h

/-- C1 (amended): the `cumulative_profit` value `compute_metrics` writes
for each record is the running sum of profit over the records in their
stored (insertion) order; this agrees with the date-ordered running sum
only when the ledger is already stored in ascending date order. -/
theorem c1_cumulative_insertion_order (df : List BetRecord) :
    (compute_metrics df).2.map (·.cumulative_profit) =
      (cumsum (df.map (·.profit))).map some :=
  map_cum_setCumulative df

/-- Evaluating `bankroll_simulation` on the same-date two-record ledger:
the collapse keeps the date's first snapshot, `200 + 5 = 205`. -/
theorem bankroll_c2Ledger_eval :
    bankroll_simulation c2Ledger = .ok [⟨1, [("FanDuel", 205)]⟩] := by
  simp [c2Ledger, bankroll_simulation, sortByDate, insertByDate, seedRunning, uniqueFirst,
    walkRows, updateRunning, dictSet, dictGetD, mkBet, startingBankroll, STARTING_BANKROLLS,
    dropDupDatesFirst, dropDupDatesGo, sortSnapsByDate, insertSnapByDate]
  norm_num

/-- C2 (counterexample): on `c2Ledger` (two records dated `1` on
FanDuel, profits `5` and `7`) the code keeps the date's *first* snapshot,
balance `205`, while collapsing by keeping the last snapshot would give
`212 = 200 + 5 + 7`, the balance reflecting all records of that day; the
code's output differs from the keep-last collapse. -/
theorem c2_keep_last_counterexample :
    bankroll_simulation c2Ledger = .ok [⟨1, [("FanDuel", 205)]⟩] ∧
    sortSnapsByDate (dropDupDatesLast
        (walkRows (seedRunning (sortByDate c2Ledger)) (sortByDate c2Ledger))) =
      [⟨1, [("FanDuel", 212)]⟩] ∧
    bankroll_simulation c2Ledger ≠
      .ok (sortSnapsByDate (dropDupDatesLast
        (walkRows (seedRunning (sortByDate c2Ledger)) (sortByDate c2Ledger)))) := by
  have h2 : sortSnapsByDate (dropDupDatesLast
      (walkRows (seedRunning (sortByDate c2Ledger)) (sortByDate c2Ledger))) =
      [⟨1, [("FanDuel", 212)]⟩] := by
    simp [c2Ledger, sortByDate, insertByDate, seedRunning, uniqueFirst,
      walkRows, updateRunning, dictSet, dictGetD, mkBet, startingBankroll,
      STARTING_BANKROLLS, dropDupDatesLast, dropDupDatesGo, sortSnapsByDate,
      insertSnapByDate]
    norm_num
  refine ⟨bankroll_c2Ledger_eval, h2, ?_⟩
  rw [bankroll_c2Ledger_eval, h2]
  intro h
  simp at h

/-- C2 (amended): when `bankroll_simulation` collapses per-record
snapshot rows to one row per distinct date, it keeps the *first*
snapshot for each date (pandas `drop_duplicates` default
`keep='first'`): every row of the result is the first snapshot the walk
emitted for its date, so with several same-date records the collapsed
row reflects only the earliest-processed one. -/
theorem c2_collapse_keeps_first (df : List BetRecord) (out : List Snapshot)
    (s : Snapshot) (hok : bankroll_simulation df = .ok out) (hs : s ∈ out) :
    (walkRows (seedRunning (sortByDate df)) (sortByDate df)).find?
      (fun t => t.date == s.date) = some s := by
  simp only [bankroll_simulation] at hok
  split at hok
  · exact Except.noConfusion hok
  · injection hok with h
    subst h
    exact (dropDupDatesGo_find? (mem_sortSnapsByDate.mp hs)).2

/-- C2 (witness): the keep-first theorem applied to `c2Ledger` and the
snapshot it returns for date `1`. -/
theorem c2_collapse_keeps_first_witness :
    bankroll_simulation c2Ledger = .ok [⟨1, [("FanDuel", 205)]⟩] ∧
    (⟨1, [("FanDuel", 205)]⟩ : Snapshot) ∈
      [(⟨1, [("FanDuel", 205)]⟩ : Snapshot)] ∧
    (walkRows (seedRunning (sortByDate c2Ledger)) (sortByDate c2Ledger)).find?
      (fun t => t.date == (⟨1, [("FanDuel", 205)]⟩ : Snapshot).date) =
      some ⟨1, [("FanDuel", 205)]⟩ :=
  ⟨bankroll_c2Ledger_eval, List.mem_singleton.mpr rfl,
    c2_collapse_keeps_first c2Ledger _ _ bankroll_c2Ledger_eval
      (List.mem_singleton.mpr rfl)⟩

/-- C7: on the spec's two-record example ledger (dates `d1 < d2`),
`compute_metrics` yields total staked `20`, total profit `-0.91`,
ROI `-0.0455` and win rate `0.5`, and `bankroll_simulation` yields the
FanDuel balance `209.09` at `d1` and `200 + 9.09 - 10 = 199.09` at
`d2`. -/
theorem c7_example_ledger (d1 d2 : Nat) (h : d1 < d2) :
    (compute_metrics (c7Ledger d1 d2)).1.totalStaked = 20 ∧
    (compute_metrics (c7Ledger d1 d2)).1.totalProfit = -0.91 ∧
    (compute_metrics (c7Ledger d1 d2)).1.roi = -0.0455 ∧
    (compute_metrics (c7Ledger d1 d2)).1.winRate = 0.5 ∧
    bankroll_simulation (c7Ledger d1 d2) =
      .ok [⟨d1, [("FanDuel", 209.09)]⟩, ⟨d2, [("FanDuel", 199.09)]⟩] := by
  have hle : d1 ≤ d2 := Nat.le_of_lt h
  have hne : d2 ≠ d1 := Nat.ne_of_gt h
  refine ⟨?_, ?_, ?_, ?_, ?_⟩ <;>
    simp [c7Ledger, compute_metrics, mkBet, bankroll_simulation, sortByDate,
      insertByDate, hle, hne, h, seedRunning, uniqueFirst, walkRows,
      updateRunning, dictSet, dictGetD, startingBankroll, STARTING_BANKROLLS,
      dropDupDatesFirst, dropDupDatesGo, sortSnapsByDate, insertSnapByDate] <;>
    norm_num

/-- C7 (witness): the example evaluated at the concrete dates `0 < 1`. -/
theorem c7_example_ledger_witness :
    0 < 1 ∧
    ((compute_metrics (c7Ledger 0 1)).1.totalStaked = 20 ∧
     (compute_metrics (c7Ledger 0 1)).1.totalProfit = -0.91 ∧
     (compute_metrics (c7Ledger 0 1)).1.roi = -0.0455 ∧
     (compute_metrics (c7Ledger 0 1)).1.winRate = 0.5 ∧
     bankroll_simulation (c7Ledger 0 1) =
       .ok [⟨0, [("FanDuel", 209.09)]⟩, ⟨1, [("FanDuel", 199.09)]⟩]) :=
  ⟨by decide, c7_example_ledger 0 1 (by decide)⟩

/-- C10: every snapshot row of a successful `bankroll_simulation` run
binds a balance for every book appearing anywhere in the ledger, and a
book none of whose bets is dated at or before the snapshot's date still
appears — at its configured starting balance (`0` for an unrecognized
book). -/
theorem c10_all_books_in_every_snapshot (df : List BetRecord)
    (out : List Snapshot) (s : Snapshot) (b : String)
    (hok : bankroll_simulation df = .ok out) (hs : s ∈ out)
    (hb : b ∈ df.map (·.book)) :
    (s.balances.lookup b).isSome = true ∧
    ((∀ r ∈ df, r.book = b → s.date < r.date) →
      s.balances.lookup b = some (startingBankroll b)) := by
  have hseed : (seedRunning (sortByDate df)).lookup b = some (startingBankroll b) := by
    obtain ⟨r, hr, hrb⟩ := List.mem_map.mp hb
    refine lookup_map_keyfun startingBankroll b _ (mem_uniqueFirst.mpr ?_)
    exact List.mem_map.mpr ⟨r, mem_sortByDate.mpr hr, hrb⟩
  have hrows : s ∈ walkRows (seedRunning (sortByDate df)) (sortByDate df) := by
    simp only [bankroll_simulation] at hok
    split at hok
    · exact Except.noConfusion hok
    · injection hok with h
      subst h
      exact mem_of_mem_dropDupDatesFirst (mem_sortSnapsByDate.mp hs)
  constructor
  · exact walk_isSome hrows (by rw [hseed]; rfl)
  · intro hafter
    rw [walk_untouched (pairwise_sortByDate df) hrows
      (fun r hr hrb => hafter r (mem_sortByDate.mp hr) hrb), hseed]

/-- Evaluating `bankroll_simulation` on the two-book ledger
`c10Ledger`. -/
theorem bankroll_c10Ledger_eval :
    bankroll_simulation c10Ledger = .ok c10Out := by
  simp [c10Ledger, c10Out, bankroll_simulation, sortByDate, insertByDate,
    seedRunning, uniqueFirst, walkRows, updateRunning, dictSet, dictGetD,
    mkBet, startingBankroll, STARTING_BANKROLLS, dropDupDatesFirst,
    dropDupDatesGo, sortSnapsByDate, insertSnapByDate, List.lookup]
  norm_num

/-- C10 (witness): in `c10Ledger` the DraftKings bet is dated `2`, yet
the date-1 snapshot already binds DraftKings — at its configured
starting balance `200`. -/
theorem c10_all_books_in_every_snapshot_witness :
    bankroll_simulation c10Ledger = .ok c10Out ∧
    ((⟨1, [("FanDuel", 205), ("DraftKings", 200)]⟩ : Snapshot) ∈ c10Out ∧
      "DraftKings" ∈ c10Ledger.map (·.book)) ∧
    (((⟨1, [("FanDuel", 205), ("DraftKings", 200)]⟩ : Snapshot).balances.lookup
        "DraftKings").isSome = true ∧
      (⟨1, [("FanDuel", 205), ("DraftKings", 200)]⟩ : Snapshot).balances.lookup
        "DraftKings" = some (startingBankroll "DraftKings")) := by
  have hmem : (⟨1, [("FanDuel", 205), ("DraftKings", 200)]⟩ : Snapshot) ∈ c10Out := by
    simp [c10Out]
  have hbook : "DraftKings" ∈ c10Ledger.map (·.book) := by
    simp [c10Ledger, mkBet]
  have h := c10_all_books_in_every_snapshot c10Ledger c10Out
    ⟨1, [("FanDuel", 205), ("DraftKings", 200)]⟩ "DraftKings"
    bankroll_c10Ledger_eval hmem hbook
  refine ⟨bankroll_c10Ledger_eval, ⟨hmem, hbook⟩, h.1, h.2 ?_⟩
  intro r hr hrb
  rcases List.mem_cons.mp hr with rfl | hr
  · exact absurd hrb (by simp [mkBet])
  · rcases List.mem_cons.mp hr with rfl | hr
    · exact Nat.lt_succ_self 1
    · cases hr
